import Mathlib

/-!
Verification development for the hops-gui controller layer
(src/hops-gui/src/app.rs, grpc_client.rs, models/capability.rs,
models/policy.rs, utils/config.rs).

The Rust code is shallowly embedded:
* machine integers (u32, u64, i32) become Nat/Int with explicit bounds
  where overflow or saturation matters;
* Rust f64 values entering the memory-limit pipeline are modelled as
  exact rationals: decimal-string parsing is exact decimal-to-rational,
  and the saturating cast `as u64` is modelled by ratToU64.  The f64
  rounding step of Rust parsing is not modelled; every concrete input
  used in a theorem below denotes a value exactly representable in f64,
  where the two semantics agree;
* HashMap String String becomes an association list with
  insert-replaces semantics; HashSet FilesystemCapability becomes a
  record of three membership flags (iteration order of the set is
  irrelevant in the source: each element writes a distinct array);
* the tonic GrpcClient handle is an opaque token (a Nat): the claims
  concern only its ownership, taken out of and returned to the
  `grpc_client : Option` slot;
* the asynchronous Task returned by HopsGui::update is modelled by the
  second component of `update`: the RPC call or file write the handler
  issues, if any.  Completion messages (RunSandboxResult, ...) carry the
  client token back exactly as in the source.

Messages whose handlers only build f64 display strings
(the display refresh of ProfileSelected, CpuChanged, MemoryUnitChanged)
are not modelled; no claim concerns them.
-/

namespace Hops

/-- models/capability.rs NetworkCapability. -/
inductive NetworkCapability
  | Disabled
  | Outbound
  | Loopback
  | Full
deriving DecidableEq, Repr

/-- models/capability.rs NetworkCapability::as_str. -/
def NetworkCapability.as_str : NetworkCapability → String
  | .Disabled => "disabled"
  | .Outbound => "outbound"
  | .Loopback => "loopback"
  | .Full => "full"

/-- models/capability.rs NetworkCapability::from_str: the wildcard arm of
the match maps every unrecognized string to Disabled. -/
def NetworkCapability.from_str (s : String) : NetworkCapability :=
  if s = "outbound" then .Outbound
  else if s = "loopback" then .Loopback
  else if s = "full" then .Full
  else .Disabled

/-- models/capability.rs FilesystemCapability. -/
inductive FilesystemCapability
  | Read
  | Write
  | Execute
deriving DecidableEq, Repr

/-- HashSet FilesystemCapability, modelled by its membership flags. -/
structure FsCapSet where
  read : Bool
  write : Bool
  execute : Bool
deriving DecidableEq, Repr

def FsCapSet.empty : FsCapSet := ⟨false, false, false⟩

def FsCapSet.contains (s : FsCapSet) : FilesystemCapability → Bool
  | .Read => s.read
  | .Write => s.write
  | .Execute => s.execute

def FsCapSet.insert (s : FsCapSet) : FilesystemCapability → FsCapSet
  | .Read => { s with read := true }
  | .Write => { s with write := true }
  | .Execute => { s with execute := true }

def FsCapSet.remove (s : FsCapSet) : FilesystemCapability → FsCapSet
  | .Read => { s with read := false }
  | .Write => { s with write := false }
  | .Execute => { s with execute := false }

/-- models/capability.rs ResourceLimits (u32 / u64 / u32 options). -/
structure ResourceLimits where
  cpus : Option ℕ
  memory_bytes : Option ℕ
  max_processes : Option ℕ
deriving DecidableEq, Repr

def ResourceLimits.default : ResourceLimits := ⟨none, none, none⟩

/-- models/capability.rs MountType. -/
inductive MountType
  | Bind
  | Tmpfs
  | Devtmpfs
  | Proc
  | Sysfs
deriving DecidableEq, Repr

/-- models/capability.rs MountMode. -/
inductive MountMode
  | ReadOnly
  | ReadWrite
deriving DecidableEq, Repr

/-- models/capability.rs MountConfig. -/
structure MountConfig where
  source : String
  destination : String
  mount_type : MountType
  mode : MountMode
  options : List String
deriving DecidableEq, Repr

/-- models/capability.rs SandboxConfig; the environment HashMap is an
association list. -/
structure SandboxConfig where
  root_path : String
  mounts : List MountConfig
  hostname : Option String
  working_directory : String
  environment : List (String × String)
deriving DecidableEq, Repr

def SandboxConfig.default : SandboxConfig :=
  { root_path := "/"
    mounts := []
    hostname := none
    working_directory := "/"
    environment := [] }

/-- models/capability.rs CapabilityGrant. -/
structure CapabilityGrant where
  network : NetworkCapability
  filesystem : FsCapSet
  allowed_paths : List String
  denied_paths : List String
  resource_limits : ResourceLimits
deriving DecidableEq, Repr

def CapabilityGrant.default : CapabilityGrant :=
  { network := .Disabled
    filesystem := FsCapSet.empty
    allowed_paths := []
    denied_paths := []
    resource_limits := ResourceLimits.default }

/-- models/policy.rs Policy; metadata HashMap is an association list. -/
structure Policy where
  name : String
  version : String
  description : Option String
  capabilities : CapabilityGrant
  sandbox : SandboxConfig
  metadata : List (String × String)
deriving DecidableEq, Repr

/-- models/policy.rs Policy::default. -/
def Policy.default : Policy :=
  { name := "default"
    version := "1.0.0"
    description := none
    capabilities := CapabilityGrant.default
    sandbox := SandboxConfig.default
    metadata := [] }

/- ------------------------------------------------------------------ -/
/- Exact-rational model of the f64 memory pipeline (app.rs).          -/
/- ------------------------------------------------------------------ -/

/-- Digit list to natural number, most significant first. -/
def digitsVal (l : List Char) : ℕ :=
  l.foldl (fun a c => a * 10 + (c.toNat - 48)) 0

/-- Exponent suffix of a float literal: optional sign then digits. -/
def parseExpSuffix (m : ℚ) (t : List Char) : Option ℚ :=
  let (esign, t1) : ℤ × List Char :=
    match t with
    | '-' :: r => (-1, r)
    | '+' :: r => (1, r)
    | r => (1, r)
  let ed := t1.takeWhile Char.isDigit
  if ed.isEmpty then none
  else if (t1.dropWhile Char.isDigit).isEmpty then
    some (m * (10 : ℚ) ^ (esign * (digitsVal ed : ℤ)))
  else none

/-- Mantissa already split into integer and fraction digits; the rest of
the input must be empty or an exponent suffix. -/
def parseMantissaRest (sign : ℚ) (ip fp : List Char) (rest : List Char) : Option ℚ :=
  let mant : ℚ := sign * ((digitsVal ip : ℚ) + (digitsVal fp : ℚ) / (10 : ℚ) ^ fp.length)
  match rest with
  | [] => some mant
  | 'e' :: t => parseExpSuffix mant t
  | 'E' :: t => parseExpSuffix mant t
  | _ => none

/-- Model of Rust `str::parse::<f64>` as exact decimal-to-rational
parsing (grammar: optional sign, digits with optional point and
fraction, optional exponent).  The inf/infinity/nan forms and the final
rounding to the nearest f64 are not modelled; all concrete inputs used
below are exactly representable. -/
def parseF64 (s : String) : Option ℚ :=
  let cs := s.data
  let (sign, cs1) : ℚ × List Char :=
    match cs with
    | '-' :: t => (-1, t)
    | '+' :: t => (1, t)
    | t => (1, t)
  let ip := cs1.takeWhile Char.isDigit
  let rest1 := cs1.dropWhile Char.isDigit
  match rest1 with
  | '.' :: rest2 =>
      let fp := rest2.takeWhile Char.isDigit
      let rest3 := rest2.dropWhile Char.isDigit
      if ip.isEmpty ∧ fp.isEmpty then none
      else parseMantissaRest sign ip fp rest3
  | _ => if ip.isEmpty then none else parseMantissaRest sign ip [] rest1

/-- Rust `f64 as u64`: truncation toward zero, saturating into
[0, 2^64 - 1]. -/
def ratToU64 (q : ℚ) : ℕ :=
  if q ≤ 0 then 0 else min (Int.toNat ⌊q⌋) (2 ^ 64 - 1)

/-- app.rs MemoryUnit. -/
inductive MemoryUnit
  | Bytes
  | KB
  | MB
  | GB
deriving DecidableEq, Repr

/-- app.rs MemoryUnit::to_bytes, branch for branch. -/
def MemoryUnit.to_bytes : MemoryUnit → ℚ → ℕ
  | .Bytes, v => ratToU64 v
  | .KB, v => ratToU64 (v * 1024)
  | .MB, v => ratToU64 (v * 1024 * 1024)
  | .GB, v => ratToU64 (v * 1024 * 1024 * 1024)

/-- The per-unit byte multiplier named by the spec. -/
def MemoryUnit.mult : MemoryUnit → ℚ
  | .Bytes => 1
  | .KB => 1024
  | .MB => 1024 * 1024
  | .GB => 1024 * 1024 * 1024

/-- Rust `u32::from_str`: optional plus sign, digits, bounded by 2^32. -/
def parseU32 (s : String) : Option ℕ :=
  let cs : List Char :=
    match s.data with
    | '+' :: t => t
    | t => t
  if cs.isEmpty then none
  else if cs.all Char.isDigit then
    let n := digitsVal cs
    if n < 2 ^ 32 then some n else none
  else none

/- ------------------------------------------------------------------ -/
/- Validation-error map (HashMap String String in app.rs).            -/
/- ------------------------------------------------------------------ -/

def errInsert (m : List (String × String)) (k v : String) : List (String × String) :=
  (k, v) :: m.filter (fun kv => kv.1 ≠ k)

def errRemove (m : List (String × String)) (k : String) : List (String × String) :=
  m.filter (fun kv => kv.1 ≠ k)

def errGet : List (String × String) → String → Option String
  | [], _ => none
  | kv :: t, k => if kv.1 = k then some kv.2 else errGet t k

/-- app.rs ValidationErrors. -/
structure ValidationErrors where
  fields : List (String × String)
deriving DecidableEq, Repr

def ValidationErrors.default : ValidationErrors := ⟨[]⟩

/-- app.rs PathInputs. -/
structure PathInputs where
  allowed_input : String
  denied_input : String
deriving DecidableEq, Repr

def PathInputs.default : PathInputs := ⟨"", ""⟩

/-- app.rs RunRecord. -/
structure RunRecord where
  id : String
  profile_name : String
  start_time : String
  duration : String
  exit_code : ℤ
  denied_capabilities : List String
deriving DecidableEq, Repr

/-- app.rs ViewMode. -/
inductive ViewMode
  | ProfileList
  | ProfileEditor
  | RunHistory
deriving DecidableEq, Repr

/-- app.rs DaemonStatus. -/
inductive DaemonStatus
  | Unknown
  | Connected
  | Offline
deriving DecidableEq, Repr

/-- app.rs LoadingState. -/
inductive LoadingState
  | Idle
  | LoadingHistory
  | RunningSandbox
deriving DecidableEq, Repr

/-- app.rs PathType. -/
inductive PathType
  | Allowed
  | Denied
deriving DecidableEq, Repr

/-- The key `format!("{:?}_path", path_type)` used by the AddPath arm. -/
def PathType.fieldName : PathType → String
  | .Allowed => "Allowed_path"
  | .Denied => "Denied_path"

/-- app.rs HopsGui state.  grpc_client is the token of the owned client
handle when present. -/
structure HopsState where
  profiles : List Policy
  selected_profile : Option ℕ
  view_mode : ViewMode
  path_inputs : PathInputs
  validation_errors : ValidationErrors
  run_history : List RunRecord
  history_filter : String
  grpc_client : Option ℕ
  daemon_status : DaemonStatus
  loading_state : LoadingState
  memory_unit : MemoryUnit
  memory_display_value : String
deriving DecidableEq, Repr

/-- Rust `str::trim().is_empty()`: the trimmed string is empty iff
every character is whitespace.  (Rust trims Unicode whitespace; the
model uses Char.isWhitespace, which agrees on ASCII.) -/
def trimEmpty (s : String) : Bool :=
  s.data.all Char.isWhitespace

def splitWhitespaceAux : List Char → List Char → List String
  | [], acc => if acc.isEmpty then [] else [String.mk acc.reverse]
  | c :: t, acc =>
      if c.isWhitespace then
        if acc.isEmpty then splitWhitespaceAux t []
        else String.mk acc.reverse :: splitWhitespaceAux t []
      else splitWhitespaceAux t (c :: acc)

/-- Rust `str::split_whitespace`: maximal runs of non-whitespace
characters, no empty items. -/
def splitWhitespace (s : String) : List String :=
  splitWhitespaceAux s.data []

/-- The observable side effect a single update step issues: one of the
asynchronous daemon calls (carrying the moved-out client token) or the
synchronous profile file write.  `none` means the handler returned
Task::none() and wrote no file. -/
inductive Effect
  | runSandboxCall (client : ℕ) (policy : Policy) (command : List String)
      (working_dir : Option String)
  | stopSandboxCall (client : ℕ) (sandbox_id : String) (force : Bool)
  | listSandboxesCall (client : ℕ) (include_stopped : Bool)
  | saveProfileWrite (name : String) (policy : Policy)
deriving DecidableEq, Repr

/-- app.rs Message (the arms modelled here; results are carried as
Except values and the returned client as its token). -/
inductive Msg
  | ProfilesLoaded (profiles : List Policy)
  | CreateNewProfile
  | DeleteProfile (index : ℕ)
  | DuplicateProfile (index : ℕ)
  | NetworkCapabilityChanged (c : NetworkCapability)
  | FilesystemCapabilityToggled (c : FilesystemCapability)
  | PathInputChanged (path_type : PathType) (value : String)
  | AddPath (path_type : PathType)
  | RemovePath (path_type : PathType) (index : ℕ)
  | MemoryBytesChanged (value : String)
  | MaxProcessesChanged (value : String)
  | NameChanged (name : String)
  | SaveProfile
  | SwitchView (mode : ViewMode)
  | HistoryFilterChanged (filter : String)
  | GrpcClientConnected (result : Except String ℕ)
  | RunSandbox (profile_idx : ℕ) (command : String)
  | RunSandboxResult (result : Except String String) (client : ℕ)
  | StopSandbox (sandbox_id : String)
  | StopSandboxResult (result : Except String Unit) (client : ℕ)
  | HistoryLoaded (result : Except String (List RunRecord)) (client : ℕ)

/-- `Vec` in-place mutation through get_mut: replace the element at the
index if it exists, identity otherwise. -/
def listModify {α : Type} : List α → ℕ → (α → α) → List α
  | [], _, _ => []
  | a :: t, 0, f => f a :: t
  | a :: t, n + 1, f => a :: listModify t n f

/-- Set the memory limit of a profile. -/
def setMemory (b : Option ℕ) (p : Policy) : Policy :=
  { p with capabilities.resource_limits.memory_bytes := b }

/-- app.rs HopsGui::update, arm for arm.  The returned Effect is the
daemon call or file write the arm issues. -/
def update (s : HopsState) (msg : Msg) : HopsState × Option Effect :=
  match msg with
  | .ProfilesLoaded profiles => ({ s with profiles := profiles }, none)
  | .CreateNewProfile =>
      let new_policy := { Policy.default with
        name := "profile-" ++ Nat.repr (s.profiles.length + 1) }
      ({ s with
          profiles := s.profiles ++ [new_policy]
          selected_profile := some s.profiles.length
          view_mode := .ProfileEditor
          path_inputs := PathInputs.default
          validation_errors := ValidationErrors.default
          memory_display_value := "" }, none)
  | .DeleteProfile index =>
      if index < s.profiles.length then
        let s1 := { s with profiles := s.profiles.eraseIdx index }
        match s.selected_profile with
        | some selected =>
            if selected = index then
              ({ s1 with selected_profile := none, view_mode := .ProfileList }, none)
            else if selected > index then
              ({ s1 with selected_profile := some (selected - 1) }, none)
            else (s1, none)
        | none => (s1, none)
      else (s, none)
  | .DuplicateProfile index =>
      match s.profiles.get? index with
      | some profile =>
          ({ s with profiles :=
              s.profiles ++ [{ profile with name := profile.name ++ "-copy" }] }, none)
      | none => (s, none)
  | .NetworkCapabilityChanged c =>
      match s.selected_profile with
      | some idx =>
          let ps := listModify s.profiles idx (fun p => { p with capabilities.network := c })
          ({ s with profiles := ps }, none)
      | none => (s, none)
  | .FilesystemCapabilityToggled c =>
      match s.selected_profile with
      | some idx =>
          let ps := listModify s.profiles idx (fun p =>
            if p.capabilities.filesystem.contains c then
              { p with capabilities.filesystem := p.capabilities.filesystem.remove c }
            else
              { p with capabilities.filesystem := p.capabilities.filesystem.insert c })
          ({ s with profiles := ps }, none)
      | none => (s, none)
  | .PathInputChanged path_type value =>
      match path_type with
      | .Allowed => ({ s with path_inputs.allowed_input := value }, none)
      | .Denied => ({ s with path_inputs.denied_input := value }, none)
  | .AddPath path_type =>
      let path := match path_type with
        | .Allowed => s.path_inputs.allowed_input
        | .Denied => s.path_inputs.denied_input
      if trimEmpty path then
        let ve : ValidationErrors :=
          ⟨errInsert s.validation_errors.fields path_type.fieldName "Path cannot be empty"⟩
        ({ s with validation_errors := ve }, none)
      else
        let ve : ValidationErrors :=
          ⟨errRemove s.validation_errors.fields path_type.fieldName⟩
        let s1 := { s with validation_errors := ve }
        match s1.selected_profile with
        | some idx =>
            if idx < s1.profiles.length then
              match path_type with
              | .Allowed =>
                  let ps := listModify s1.profiles idx (fun p =>
                    { p with capabilities.allowed_paths :=
                        p.capabilities.allowed_paths ++ [path] })
                  ({ s1 with profiles := ps, path_inputs.allowed_input := "" }, none)
              | .Denied =>
                  let ps := listModify s1.profiles idx (fun p =>
                    { p with capabilities.denied_paths :=
                        p.capabilities.denied_paths ++ [path] })
                  ({ s1 with profiles := ps, path_inputs.denied_input := "" }, none)
            else (s1, none)
        | none => (s1, none)
  | .RemovePath path_type index =>
      match s.selected_profile with
      | some idx =>
          let ps := listModify s.profiles idx (fun p =>
            match path_type with
            | .Allowed =>
                if index < p.capabilities.allowed_paths.length then
                  { p with capabilities.allowed_paths :=
                      p.capabilities.allowed_paths.eraseIdx index }
                else p
            | .Denied =>
                if index < p.capabilities.denied_paths.length then
                  { p with capabilities.denied_paths :=
                      p.capabilities.denied_paths.eraseIdx index }
                else p)
          ({ s with profiles := ps }, none)
      | none => (s, none)
  | .MemoryBytesChanged value =>
      let s0 := { s with memory_display_value := value }
      match s0.selected_profile with
      | some idx =>
          if idx < s0.profiles.length then
            match parseF64 value with
            | some q =>
                let bytes := s0.memory_unit.to_bytes q
                let ps := listModify s0.profiles idx (setMemory (some bytes))
                let ve : ValidationErrors :=
                  ⟨errRemove s0.validation_errors.fields "memory_bytes"⟩
                ({ s0 with profiles := ps, validation_errors := ve }, none)
            | none =>
                if value = "" then
                  let ps := listModify s0.profiles idx (setMemory none)
                  let ve : ValidationErrors :=
                    ⟨errRemove s0.validation_errors.fields "memory_bytes"⟩
                  ({ s0 with profiles := ps, validation_errors := ve }, none)
                else
                  let ve : ValidationErrors :=
                    ⟨errInsert s0.validation_errors.fields "memory_bytes"
                      "Must be a number"⟩
                  ({ s0 with validation_errors := ve }, none)
          else (s0, none)
      | none => (s0, none)
  | .MaxProcessesChanged value =>
      match s.selected_profile with
      | some idx =>
          if idx < s.profiles.length then
            match parseU32 value with
            | some m =>
                let ps := listModify s.profiles idx (fun p =>
                  { p with capabilities.resource_limits.max_processes := some m })
                let ve : ValidationErrors :=
                  ⟨errRemove s.validation_errors.fields "max_processes"⟩
                ({ s with profiles := ps, validation_errors := ve }, none)
            | none =>
                let ve : ValidationErrors :=
                  ⟨errInsert s.validation_errors.fields "max_processes"
                    "Must be a positive number"⟩
                ({ s with validation_errors := ve }, none)
          else (s, none)
      | none => (s, none)
  | .NameChanged name =>
      match s.selected_profile with
      | some idx =>
          if idx < s.profiles.length then
            if trimEmpty name then
              let ve : ValidationErrors :=
                ⟨errInsert s.validation_errors.fields "name" "Name cannot be empty"⟩
              ({ s with validation_errors := ve }, none)
            else
              let ps := listModify s.profiles idx (fun p => { p with name := name })
              let ve : ValidationErrors := ⟨errRemove s.validation_errors.fields "name"⟩
              ({ s with profiles := ps, validation_errors := ve }, none)
          else (s, none)
      | none => (s, none)
  | .SaveProfile =>
      if s.validation_errors.fields.isEmpty then
        match s.selected_profile with
        | some idx =>
            match s.profiles.get? idx with
            | some profile => (s, some (.saveProfileWrite profile.name profile))
            | none => (s, none)
        | none => (s, none)
      else (s, none)
  | .SwitchView mode =>
      let s1 := { s with view_mode := mode }
      if mode = .ProfileList then
        ({ s1 with selected_profile := none }, none)
      else if mode = .RunHistory then
        match s1.grpc_client with
        | some c =>
            ({ s1 with loading_state := .LoadingHistory, grpc_client := none },
              some (.listSandboxesCall c true))
        | none => (s1, none)
      else (s1, none)
  | .HistoryFilterChanged filter => ({ s with history_filter := filter }, none)
  | .GrpcClientConnected result =>
      match result with
      | .ok c =>
          ({ s with grpc_client := some c, daemon_status := .Connected }, none)
      | .error _ => ({ s with daemon_status := .Offline }, none)
  | .RunSandbox profile_idx command =>
      match s.profiles.get? profile_idx with
      | some profile =>
          match s.grpc_client with
          | some c =>
              ({ s with grpc_client := none, loading_state := .RunningSandbox },
                some (.runSandboxCall c profile (splitWhitespace command) (some "/")))
          | none => (s, none)
      | none => (s, none)
  | .RunSandboxResult _ client =>
      ({ s with grpc_client := some client, loading_state := .Idle }, none)
  | .StopSandbox sandbox_id =>
      match s.grpc_client with
      | some c =>
          ({ s with grpc_client := none },
            some (.stopSandboxCall c sandbox_id false))
      | none => (s, none)
  | .StopSandboxResult _ client =>
      ({ s with grpc_client := some client }, none)
  | .HistoryLoaded result client =>
      let s1 := { s with grpc_client := some client, loading_state := .Idle }
      match result with
      | .ok history => ({ s1 with run_history := history }, none)
      | .error _ => (s1, none)

/- ------------------------------------------------------------------ -/
/- Wire policy (grpc_client.rs convert_policy_to_proto).              -/
/- ------------------------------------------------------------------ -/

/-- Modelled from the spec: the four-valued wire network enum generated
from the protobuf definition (the .proto file is not part of src/); the
spec calls it a four-valued wire enum that the model network level maps
onto 1:1.  The i32 representation of the generated enum is kept
abstract as the constructor itself. -/
inductive ProtoNetworkAccess
  | Disabled
  | Outbound
  | Loopback
  | Full
deriving DecidableEq, Repr

/-- Modelled from the spec: generated hops.FilesystemCapabilities wire
message with read/write/execute path arrays. -/
structure ProtoFilesystemCapabilities where
  read : List String
  write : List String
  execute : List String
deriving DecidableEq, Repr

/-- Modelled from the spec: generated hops.Capabilities wire message. -/
structure ProtoCapabilities where
  network : ProtoNetworkAccess
  filesystem : Option ProtoFilesystemCapabilities
deriving DecidableEq, Repr

/-- Modelled from the spec: generated hops.ResourceLimits wire message
(cpus and max_processes are i32 fields, memory a string). -/
structure ProtoResourceLimits where
  cpus : ℤ
  memory : String
  max_processes : ℤ
deriving DecidableEq, Repr

/-- Modelled from the spec: generated hops.SandboxConfig wire message. -/
structure ProtoSandboxConfig where
  root : String
deriving DecidableEq, Repr

/-- Modelled from the spec: generated hops.Policy wire message. -/
structure ProtoPolicy where
  sandbox : Option ProtoSandboxConfig
  capabilities : Option ProtoCapabilities
  resources : Option ProtoResourceLimits
deriving DecidableEq, Repr

/-- The network match at the top of convert_policy_to_proto. -/
def networkToProto : NetworkCapability → ProtoNetworkAccess
  | .Disabled => .Disabled
  | .Outbound => .Outbound
  | .Loopback => .Loopback
  | .Full => .Full

/-- Rust `u32 as i32` (two's-complement reinterpretation), for operands
already below 2^32. -/
def u32ToI32 (n : ℕ) : ℤ :=
  if n < 2 ^ 31 then (n : ℤ) else (n : ℤ) - 2 ^ 32

/-- grpc_client.rs format_memory, branch for branch. -/
def format_memory : Option ℕ → String
  | some b =>
      if b ≥ 1024 * 1024 * 1024 then Nat.repr (b / (1024 * 1024 * 1024)) ++ "G"
      else if b ≥ 1024 * 1024 then Nat.repr (b / (1024 * 1024)) ++ "M"
      else if b ≥ 1024 then Nat.repr (b / 1024) ++ "K"
      else Nat.repr b
  | none => "0"

/-- grpc_client.rs convert_policy_to_proto.  The source iterates over
the filesystem HashSet and extends the matching array with the whole
allowed_paths list; a set holds each flag at most once and each flag
writes a distinct array, so the loop is equivalent to the three
conditionals below and the iteration order cannot be observed. -/
def convert_policy_to_proto (policy : Policy) : ProtoPolicy :=
  let network_access := networkToProto policy.capabilities.network
  let fs_read :=
    if policy.capabilities.filesystem.read then policy.capabilities.allowed_paths else []
  let fs_write :=
    if policy.capabilities.filesystem.write then policy.capabilities.allowed_paths else []
  let fs_execute :=
    if policy.capabilities.filesystem.execute then policy.capabilities.allowed_paths else []
  let filesystem : ProtoFilesystemCapabilities :=
    { read := fs_read, write := fs_write, execute := fs_execute }
  let capabilities : ProtoCapabilities :=
    { network := network_access, filesystem := some filesystem }
  let resources : ProtoResourceLimits :=
    { cpus := u32ToI32 (policy.capabilities.resource_limits.cpus.getD 0)
      memory := format_memory policy.capabilities.resource_limits.memory_bytes
      max_processes := u32ToI32 (policy.capabilities.resource_limits.max_processes.getD 0) }
  let sandbox : ProtoSandboxConfig := { root := policy.sandbox.root_path }
  { sandbox := some sandbox
    capabilities := some capabilities
    resources := some resources }

/- ------------------------------------------------------------------ -/
/- Persistence (utils/config.rs with the serde attributes of           -/
/- models/policy.rs and models/capability.rs).                         -/
/-                                                                     -/
/- The toml text itself is not modelled; the persisted form is a       -/
/- document structure in which a slot is Option-valued exactly when    -/
/- the field can be absent from the file (skip_serializing_if on the   -/
/- writer side, serde default or implicit Option default on the        -/
/- reader side).  save_profile writes every field it does not skip;    -/
/- deserialization applies the serde defaults to absent slots.         -/
/- ------------------------------------------------------------------ -/

/-- Persisted ResourceLimits: every field carries skip_serializing_if
Option::is_none and deserializes to None when absent. -/
structure TomlResourceLimits where
  cpus : Option ℕ
  memory_bytes : Option ℕ
  max_processes : Option ℕ
deriving DecidableEq, Repr

/-- Persisted CapabilityGrant: network is required; the other fields
carry serde(default). -/
structure TomlCapabilityGrant where
  network : NetworkCapability
  filesystem : Option FsCapSet
  allowed_paths : Option (List String)
  denied_paths : Option (List String)
  resource_limits : Option TomlResourceLimits
deriving DecidableEq, Repr

/-- Persisted MountConfig: source, destination and type are required;
mode defaults to ReadOnly and options to []. -/
structure TomlMountConfig where
  source : String
  destination : String
  mount_type : MountType
  mode : Option MountMode
  options : Option (List String)
deriving DecidableEq, Repr

/-- Persisted SandboxConfig: root_path is required; mounts and
environment default to empty, working_directory to "/", hostname is an
Option skipped when none. -/
structure TomlSandboxConfig where
  root_path : String
  mounts : Option (List TomlMountConfig)
  hostname : Option String
  working_directory : Option String
  environment : Option (List (String × String))
deriving DecidableEq, Repr

/-- Persisted Policy: name carries serde(skip) and never appears;
version defaults to "1.0.0"; description is skipped when none;
metadata defaults to empty. -/
structure TomlPolicy where
  version : Option String
  description : Option String
  capabilities : TomlCapabilityGrant
  sandbox : TomlSandboxConfig
  metadata : Option (List (String × String))
deriving DecidableEq, Repr

def saveMount (m : MountConfig) : TomlMountConfig :=
  { source := m.source
    destination := m.destination
    mount_type := m.mount_type
    mode := some m.mode
    options := some m.options }

def loadMount (m : TomlMountConfig) : MountConfig :=
  { source := m.source
    destination := m.destination
    mount_type := m.mount_type
    mode := m.mode.getD .ReadOnly
    options := m.options.getD [] }

/-- Serialization side of save_profile: toml::to_string_pretty under
the serde attributes.  Fields without skip_serializing_if are always
written; Option fields with skip_serializing_if Option::is_none are
written exactly when present; name is never written. -/
def savePolicyDoc (p : Policy) : TomlPolicy :=
  { version := some p.version
    description := p.description
    capabilities :=
      { network := p.capabilities.network
        filesystem := some p.capabilities.filesystem
        allowed_paths := some p.capabilities.allowed_paths
        denied_paths := some p.capabilities.denied_paths
        resource_limits := some
          { cpus := p.capabilities.resource_limits.cpus
            memory_bytes := p.capabilities.resource_limits.memory_bytes
            max_processes := p.capabilities.resource_limits.max_processes } }
    sandbox :=
      { root_path := p.sandbox.root_path
        mounts := some (p.sandbox.mounts.map saveMount)
        hostname := p.sandbox.hostname
        working_directory := some p.sandbox.working_directory
        environment := some p.sandbox.environment }
    metadata := some p.metadata }

/-- Deserialization side of load_profiles: toml::from_str under the
serde defaults, followed by the overwrite of the skipped name field
with the file stem (the storage key). -/
def loadPolicyDoc (stem : String) (d : TomlPolicy) : Policy :=
  { name := stem
    version := d.version.getD "1.0.0"
    description := d.description
    capabilities :=
      { network := d.capabilities.network
        filesystem := (d.capabilities.filesystem).getD FsCapSet.empty
        allowed_paths := (d.capabilities.allowed_paths).getD []
        denied_paths := (d.capabilities.denied_paths).getD []
        resource_limits :=
          match d.capabilities.resource_limits with
          | none => ResourceLimits.default
          | some r =>
              { cpus := r.cpus
                memory_bytes := r.memory_bytes
                max_processes := r.max_processes } }
    sandbox :=
      { root_path := d.sandbox.root_path
        mounts := ((d.sandbox.mounts).getD []).map loadMount
        hostname := d.sandbox.hostname
        working_directory := (d.sandbox.working_directory).getD "/"
        environment := (d.sandbox.environment).getD [] }
    metadata := (d.metadata).getD [] }

/- ------------------------------------------------------------------ -/
/- Spec-side definitions for refinement comparison.                   -/
/- ------------------------------------------------------------------ -/

/-- Written from the words of the spec claim, not from the source: the
rounding function the claim asserts for memory conversion (Rust
f64::round semantics: round half away from zero). -/
def specRound (q : ℚ) : ℤ :=
  if 0 ≤ q then ⌊q + 1 / 2⌋ else -⌊-q + 1 / 2⌋

/- ------------------------------------------------------------------ -/
/- Sample concrete states for witnesses and counterexamples.          -/
/- ------------------------------------------------------------------ -/

def samplePolicy : Policy := Policy.default

def baseState : HopsState :=
  { profiles := [samplePolicy]
    selected_profile := some 0
    view_mode := .ProfileEditor
    path_inputs := PathInputs.default
    validation_errors := ValidationErrors.default
    run_history := []
    history_filter := ""
    grpc_client := none
    daemon_status := .Unknown
    loading_state := .Idle
    memory_unit := .MB
    memory_display_value := "" }

/- ------------------------------------------------------------------ -/
/- Helper lemmas.                                                     -/
/- ------------------------------------------------------------------ -/

theorem listModify_getElem? {α : Type} (l : List α) (i : ℕ) (f : α → α) :
    (listModify l i f)[i]? = l[i]?.map f := by
  induction l generalizing i with
  | nil => simp [listModify]
  | cons a t ih =>
      cases i with
      | zero => simp [listModify]
      | succ n => simpa [listModify] using ih n

theorem errGet_errInsert_self (m : List (String × String)) (k v : String) :
    errGet (errInsert m k v) k = some v := by
  simp [errInsert, errGet]

theorem errGet_errRemove_self (m : List (String × String)) (k : String) :
    errGet (errRemove m k) k = none := by
  induction m with
  | nil => rfl
  | cons kv t ih =>
      by_cases h : kv.1 = k
      · simpa [errRemove, h] using ih
      · simpa [errRemove, errGet, h] using ih

theorem ratToU64_natCast (n : ℕ) (hn : n < 2 ^ 64) : ratToU64 (n : ℚ) = n := by
  simp only [ratToU64]
  split_ifs with h
  · have h0 : (0 : ℚ) ≤ (n : ℚ) := by positivity
    have : (n : ℚ) = 0 := le_antisymm h h0
    exact_mod_cast this.symm
  · rw [Int.floor_natCast, Int.toNat_natCast]
    omega

theorem to_bytes_eq_mult (u : MemoryUnit) (q : ℚ) :
    u.to_bytes q = ratToU64 (q * u.mult) := by
  cases u with
  | Bytes =>
      show ratToU64 q = ratToU64 (q * 1)
      rw [mul_one]
  | KB => rfl
  | MB =>
      show ratToU64 (q * 1024 * 1024) = ratToU64 (q * (1024 * 1024))
      rw [mul_assoc]
  | GB =>
      show ratToU64 (q * 1024 * 1024 * 1024) = ratToU64 (q * (1024 * 1024 * 1024))
      congr 1
      ring

theorem parseF64_512 : parseF64 "512" = some 512 := by
  simp [parseF64, parseMantissaRest, digitsVal]

theorem parseF64_one_point_five : parseF64 "1.5" = some (3 / 2) := by
  simp [parseF64, parseMantissaRest, digitsVal]
  norm_num

theorem to_bytes_MB_512 : MemoryUnit.to_bytes .MB 512 = 536870912 := by
  have h : ((512 : ℚ) * 1024 * 1024) = ((536870912 : ℕ) : ℚ) := by norm_num
  simp only [MemoryUnit.to_bytes, h]
  rw [ratToU64_natCast]
  norm_num

theorem to_bytes_Bytes_three_halves : MemoryUnit.to_bytes .Bytes (3 / 2) = 1 := by
  simp only [MemoryUnit.to_bytes, ratToU64]
  rw [if_neg (by norm_num)]
  rw [show ⌊(3 / 2 : ℚ)⌋ = 1 by rw [Int.floor_eq_iff]; norm_num]
  rfl

theorem specRound_three_halves : specRound (3 / 2) = 2 := by
  simp only [specRound]
  rw [if_pos (by norm_num)]
  rw [show (3 / 2 + 1 / 2 : ℚ) = ((2 : ℤ) : ℚ) by norm_num, Int.floor_intCast]

theorem loadMount_saveMount (m : MountConfig) : loadMount (saveMount m) = m := by
  cases m
  rfl

/- ------------------------------------------------------------------ -/
/- Claims.                                                            -/
/- ------------------------------------------------------------------ -/

/-- C10: NetworkCapability.from_str is total and fail-closed: it
inverts as_str on each of the four levels, and every string other than
"outbound", "loopback" and "full" (the empty string and arbitrary
garbage included) maps to the most restrictive level Disabled. -/
theorem c10_network_from_str :
    (∀ c : NetworkCapability, NetworkCapability.from_str c.as_str = c) ∧
    (∀ s : String, s ≠ "outbound" → s ≠ "loopback" → s ≠ "full" →
      NetworkCapability.from_str s = .Disabled) := by
  constructor
  · intro c
    cases c <;> rfl
  · intro s h1 h2 h3
    simp [NetworkCapability.from_str, h1, h2, h3]

theorem c10_network_from_str_witness :
    NetworkCapability.from_str "garbage" = .Disabled :=
  c10_network_from_str.2 "garbage" (by decide) (by decide) (by decide)

/-- C8: the wire memory string is the integer-truncated GiB count with
suffix G when the limit is at least one GiB, else the MiB count with M
when at least one MiB, else the KiB count with K when at least one KiB,
else the raw byte count, and "0" when the limit is unset. -/
theorem c8_format_memory :
    format_memory none = "0" ∧
    ∀ b : ℕ,
      (1024 * 1024 * 1024 ≤ b →
        format_memory (some b) = Nat.repr (b / (1024 * 1024 * 1024)) ++ "G") ∧
      (1024 * 1024 ≤ b → b < 1024 * 1024 * 1024 →
        format_memory (some b) = Nat.repr (b / (1024 * 1024)) ++ "M") ∧
      (1024 ≤ b → b < 1024 * 1024 →
        format_memory (some b) = Nat.repr (b / 1024) ++ "K") ∧
      (b < 1024 → format_memory (some b) = Nat.repr b) := by
  refine ⟨rfl, fun b => ⟨?_, ?_, ?_, ?_⟩⟩ <;>
    · intros
      simp only [format_memory, ge_iff_le]
      split_ifs <;> first | rfl | omega

theorem c8_format_memory_witness :
    format_memory (some 3221225472) = Nat.repr (3221225472 / (1024 * 1024 * 1024)) ++ "G" :=
  (c8_format_memory.2 3221225472).1 (by norm_num)

/-- C5: the read path array of the wire policy is the whole allowed-path
list exactly when the Read flag is present (empty otherwise), likewise
for Write and Execute; the denied-path list never influences the wire
policy; and the four network levels map one-to-one onto the four wire
enum values. -/
theorem c5_wire_policy_paths :
    (∀ p : Policy,
      (convert_policy_to_proto p).capabilities = some
        { network := networkToProto p.capabilities.network
          filesystem := some
            { read := if p.capabilities.filesystem.read
                then p.capabilities.allowed_paths else []
              write := if p.capabilities.filesystem.write
                then p.capabilities.allowed_paths else []
              execute := if p.capabilities.filesystem.execute
                then p.capabilities.allowed_paths else [] } }) ∧
    (∀ (p : Policy) (ds : List String),
      convert_policy_to_proto { p with capabilities.denied_paths := ds } =
        convert_policy_to_proto p) ∧
    (networkToProto .Disabled = .Disabled ∧ networkToProto .Outbound = .Outbound ∧
      networkToProto .Loopback = .Loopback ∧ networkToProto .Full = .Full) := by
  refine ⟨fun p => rfl, fun p ds => rfl, rfl, rfl, rfl, rfl⟩

/-- C7: serializing a Policy to the persisted document and
deserializing it back, overwriting the name with the storage key,
recovers the policy with every field unchanged except the name, which
becomes the key; in particular unset resource limits stay unset. -/
theorem c7_policy_roundtrip (key : String) (p : Policy) :
    loadPolicyDoc key (savePolicyDoc p) = { p with name := key } := by
  cases p with
  | mk name version description capabilities sandbox metadata =>
      cases capabilities with
      | mk network filesystem allowed denied limits =>
          cases limits
          cases sandbox with
          | mk root mounts hostname wd env =>
              simp [loadPolicyDoc, savePolicyDoc, loadMount_saveMount, List.map_map,
                Function.comp_def]

/-- C2: with i and the selection s both in range, DeleteProfile i
removes the profile at i and adjusts the selection: equal index clears
the selection and returns to the profile list, a larger selection is
decremented, a smaller one is untouched. -/
theorem c2_delete_profile_selection (s : HopsState) (i sel : ℕ)
    (hi : i < s.profiles.length) (hsel : s.selected_profile = some sel)
    (_hs : sel < s.profiles.length) :
    (update s (.DeleteProfile i)).1.profiles = s.profiles.eraseIdx i ∧
    (sel = i →
      (update s (.DeleteProfile i)).1.selected_profile = none ∧
      (update s (.DeleteProfile i)).1.view_mode = .ProfileList) ∧
    (i < sel → (update s (.DeleteProfile i)).1.selected_profile = some (sel - 1)) ∧
    (sel < i → (update s (.DeleteProfile i)).1.selected_profile = some sel) := by
  refine ⟨?_, ?_, ?_, ?_⟩
  · simp only [update, hi, if_true, hsel]
    split_ifs <;> rfl
  · intro h
    simp [update, hi, hsel, h]
  · intro h
    have h1 : ¬ sel = i := by omega
    have h2 : sel > i := h
    simp [update, hi, hsel, h1, h2]
  · intro h
    have h1 : ¬ sel = i := by omega
    have h2 : ¬ sel > i := by omega
    simp [update, hi, hsel, h1, h2]

theorem c2_delete_profile_selection_witness :
    ((update { baseState with
        profiles := [samplePolicy, samplePolicy, samplePolicy]
        selected_profile := some 2 } (.DeleteProfile 1)).1.selected_profile = some 1 ∧
      (update { baseState with
        profiles := [samplePolicy, samplePolicy, samplePolicy]
        selected_profile := some 2 } (.DeleteProfile 1)).1.profiles =
        [samplePolicy, samplePolicy]) := by
  have h := c2_delete_profile_selection
    { baseState with
        profiles := [samplePolicy, samplePolicy, samplePolicy]
        selected_profile := some 2 } 1 2
    (by decide) rfl (by decide)
  exact ⟨h.2.2.1 (by decide), h.1⟩

/-- C4: SaveProfile with a non-empty validation-error mapping is a
silent no-op: the state is unchanged and no write effect is issued;
conversely a save write is only ever issued when the error mapping is
empty. -/
theorem c4_save_blocked_by_errors :
    (∀ s : HopsState, s.validation_errors.fields ≠ [] →
      update s .SaveProfile = (s, none)) ∧
    (∀ (s : HopsState) (e : Effect), (update s .SaveProfile).2 = some e →
      s.validation_errors.fields = []) := by
  have hblock : ∀ s : HopsState, s.validation_errors.fields ≠ [] →
      update s .SaveProfile = (s, none) := by
    intro s h
    have hf : s.validation_errors.fields.isEmpty = false := by
      cases hc : s.validation_errors.fields with
      | nil => exact absurd hc h
      | cons a t => rfl
    simp [update, hf]
  refine ⟨hblock, ?_⟩
  intro s e h
  by_contra hne
  rw [hblock s hne] at h
  exact Option.noConfusion h

theorem c4_save_blocked_by_errors_witness :
    update { baseState with
        validation_errors := ⟨[("name", "Name cannot be empty")]⟩ } .SaveProfile =
      ({ baseState with
        validation_errors := ⟨[("name", "Name cannot be empty")]⟩ }, none) :=
  c4_save_blocked_by_errors.1
    { baseState with validation_errors := ⟨[("name", "Name cannot be empty")]⟩ }
    (by decide)

/-- C9: with a profile selected, NameChanged S records "Name cannot be
empty" under the name key exactly when the trimmed input is empty
(leaving the profile untouched in that case), and otherwise clears the
name error and stores S as the profile name. -/
theorem c9_name_validation (s : HopsState) (idx : ℕ) (p : Policy) (S : String)
    (hsel : s.selected_profile = some idx) (hp : s.profiles.get? idx = some p) :
    (errGet (update s (.NameChanged S)).1.validation_errors.fields "name" =
        some "Name cannot be empty" ↔ trimEmpty S = true) ∧
    (trimEmpty S = true → (update s (.NameChanged S)).1.profiles.get? idx = some p) ∧
    (trimEmpty S = false →
      errGet (update s (.NameChanged S)).1.validation_errors.fields "name" = none ∧
      (update s (.NameChanged S)).1.profiles.get? idx = some { p with name := S }) := by
  have hlen : idx < s.profiles.length := by
    rcases List.get?_eq_some.mp hp with ⟨h, _⟩
    exact h
  have hp' : s.profiles[idx]? = some p := by
    rw [← List.get?_eq_getElem?]
    exact hp
  cases hT : trimEmpty S with
  | true =>
      refine ⟨?_, ?_, ?_⟩
      · simp [update, hsel, hlen, hT, errGet_errInsert_self]
      · intro _
        simpa [update, hsel, hlen, hT] using hp
      · intro h
        exact absurd h (by decide)
  | false =>
      refine ⟨?_, ?_, ?_⟩
      · simp [update, hsel, hlen, hT, errGet_errRemove_self]
      · intro h
        exact absurd h (by decide)
      · intro _
        constructor
        · simp [update, hsel, hlen, hT, errGet_errRemove_self]
        · simp [update, hsel, hlen, hT, listModify_getElem?, hp']

theorem c9_name_validation_witness :
    errGet (update baseState (.NameChanged "web")).1.validation_errors.fields "name" =
        none ∧
      (update baseState (.NameChanged "web")).1.profiles.get? 0 =
        some { samplePolicy with name := "web" } := by
  have h := c9_name_validation baseState 0 samplePolicy "web" rfl rfl
  exact h.2.2 (by decide)

/-- C6: with a profile selected, MemoryBytesChanged V records the error
"Must be a number" under the memory key exactly when V is non-empty and
does not parse, leaving the stored limit unchanged in that case; empty
input is valid, clears the limit and the error; parseable input clears
the error and stores the converted value, truncated and saturated into
an unsigned 64-bit integer by ratToU64. -/
theorem c6_memory_validation (s : HopsState) (idx : ℕ) (p : Policy) (V : String)
    (hsel : s.selected_profile = some idx) (hp : s.profiles.get? idx = some p) :
    (errGet (update s (.MemoryBytesChanged V)).1.validation_errors.fields "memory_bytes" =
        some "Must be a number" ↔ (V ≠ "" ∧ parseF64 V = none)) ∧
    (V ≠ "" → parseF64 V = none →
      (update s (.MemoryBytesChanged V)).1.profiles.get? idx = some p) ∧
    (V = "" →
      (update s (.MemoryBytesChanged V)).1.profiles.get? idx = some (setMemory none p) ∧
      errGet (update s (.MemoryBytesChanged V)).1.validation_errors.fields "memory_bytes" =
        none) ∧
    (∀ q : ℚ, parseF64 V = some q →
      errGet (update s (.MemoryBytesChanged V)).1.validation_errors.fields "memory_bytes" =
          none ∧
      (update s (.MemoryBytesChanged V)).1.profiles.get? idx =
        some (setMemory (some (s.memory_unit.to_bytes q)) p)) ∧
    (∀ (u : MemoryUnit) (q : ℚ), u.to_bytes q = ratToU64 (q * u.mult)) := by
  have hlen : idx < s.profiles.length := by
    rcases List.get?_eq_some.mp hp with ⟨h, _⟩
    exact h
  have hp' : s.profiles[idx]? = some p := by
    rw [← List.get?_eq_getElem?]
    exact hp
  refine ⟨?_, ?_, ?_, ?_, fun u q => to_bytes_eq_mult u q⟩
  · cases hq : parseF64 V with
    | some q => simp [update, hsel, hlen, hq, errGet_errRemove_self]
    | none =>
        by_cases hV : V = ""
        · subst hV
          simp [update, hsel, hlen, hq, errGet_errRemove_self]
        · simp [update, hsel, hlen, hq, hV, errGet_errInsert_self]
  · intro hV hq
    simpa [update, hsel, hlen, hq, hV] using hp
  · intro hV
    subst hV
    have hq : parseF64 "" = none := rfl
    constructor
    · simp [update, hsel, hlen, hq, listModify_getElem?, hp']
    · simp [update, hsel, hlen, hq, errGet_errRemove_self]
  · intro q hq
    constructor
    · simp [update, hsel, hlen, hq, errGet_errRemove_self]
    · simp [update, hsel, hlen, hq, listModify_getElem?, hp']

theorem c6_memory_validation_witness :
    errGet (update baseState (.MemoryBytesChanged "abc")).1.validation_errors.fields
        "memory_bytes" = some "Must be a number" := by
  have h := c6_memory_validation baseState 0 samplePolicy "abc" rfl rfl
  exact h.1.mpr ⟨by decide, by decide⟩

/-- C3 counterexample: the claim prescribes memory limits of exactly
round(parse(N) * multiplier(U)); with input "1.5" (exactly representable
in f64) and unit Bytes the code stores 1 byte, while the claimed
rounding yields 2. -/
theorem c3_round_counterexample :
    parseF64 "1.5" = some (3 / 2) ∧
    (update { baseState with memory_unit := .Bytes } (.MemoryBytesChanged "1.5")).1.profiles =
      [setMemory (some 1) samplePolicy] ∧
    specRound (3 / 2 * MemoryUnit.mult .Bytes) = 2 ∧
    (1 : ℕ) ≠ 2 := by
  refine ⟨parseF64_one_point_five, ?_, ?_, by decide⟩
  · simp [update, parseF64_one_point_five, to_bytes_Bytes_three_halves, baseState,
      samplePolicy, listModify]
  · rw [show (3 / 2 * MemoryUnit.mult .Bytes : ℚ) = 3 / 2 by
      simp [MemoryUnit.mult]]
    exact specRound_three_halves

/-- C3 (amended): with a profile selected, a parseable memory input N
stores exactly trunc(parse(N) * multiplier(U)) bytes — the product
truncated toward zero and saturated into an unsigned 64-bit integer,
not rounded to nearest — and an empty input always clears the stored
limit to unset regardless of its prior value. -/
theorem c3_memory_conversion_truncates (s : HopsState) (idx : ℕ) (p : Policy)
    (N : String) (q : ℚ)
    (hsel : s.selected_profile = some idx) (hp : s.profiles.get? idx = some p)
    (hq : parseF64 N = some q) :
    (update s (.MemoryBytesChanged N)).1.profiles.get? idx =
      some (setMemory (some (ratToU64 (q * s.memory_unit.mult))) p) ∧
    (∀ (s2 : HopsState) (idx2 : ℕ) (p2 : Policy),
      s2.selected_profile = some idx2 → s2.profiles.get? idx2 = some p2 →
      (update s2 (.MemoryBytesChanged "")).1.profiles.get? idx2 =
        some (setMemory none p2)) := by
  have hlen : idx < s.profiles.length := by
    rcases List.get?_eq_some.mp hp with ⟨h, _⟩
    exact h
  have hp' : s.profiles[idx]? = some p := by
    rw [← List.get?_eq_getElem?]
    exact hp
  constructor
  · rw [← to_bytes_eq_mult]
    simp [update, hsel, hlen, hq, listModify_getElem?, hp']
  · intro s2 idx2 p2 hsel2 hp2
    have hlen2 : idx2 < s2.profiles.length := by
      rcases List.get?_eq_some.mp hp2 with ⟨h, _⟩
      exact h
    have hp2' : s2.profiles[idx2]? = some p2 := by
      rw [← List.get?_eq_getElem?]
      exact hp2
    have hq2 : parseF64 "" = none := rfl
    simp [update, hsel2, hlen2, hq2, listModify_getElem?, hp2']

theorem c3_memory_conversion_truncates_witness :
    (update baseState (.MemoryBytesChanged "512")).1.profiles.get? 0 =
      some (setMemory (some 536870912) samplePolicy) := by
  have h := (c3_memory_conversion_truncates baseState 0 samplePolicy "512" 512
    rfl rfl parseF64_512).1
  have he : ratToU64 ((512 : ℚ) * baseState.memory_unit.mult) = 536870912 := by
    show ratToU64 ((512 : ℚ) * MemoryUnit.mult .MB) = 536870912
    rw [← to_bytes_eq_mult]
    exact to_bytes_MB_512
  rw [he] at h
  exact h

/-- C1 counterexample: the claim says every daemon-call-triggering
event processed while the client slot is absent is a no-op on the
Controller state; but SwitchView RunHistory with the client absent
still records the new view mode, so the state does change. -/
theorem c1_absent_noop_counterexample :
    (update { baseState with view_mode := .ProfileList } (.SwitchView .RunHistory)).1 ≠
      { baseState with view_mode := .ProfileList } := by
  intro h
  have hv := congrArg HopsState.view_mode h
  simp [update, baseState] at hv

/-- C1 (amended): issuing run_sandbox, stop_sandbox or a history load
moves the client out of the Controller state into the issued call, and
the corresponding completion event moves it back in; a
daemon-call-triggering event processed while the client slot is absent
issues no new call — RunSandbox and StopSandbox leave the state
entirely unchanged, while the history-triggering view switch still
records the new view mode but changes nothing else. -/
theorem c1_client_single_owner :
    (∀ (s : HopsState) (idx : ℕ) (cmd : String) (c : ℕ) (p : Policy),
      s.grpc_client = some c → s.profiles.get? idx = some p →
      update s (.RunSandbox idx cmd) =
        ({ s with grpc_client := none, loading_state := .RunningSandbox },
          some (.runSandboxCall c p (splitWhitespace cmd) (some "/")))) ∧
    (∀ (s : HopsState) (sid : String) (c : ℕ),
      s.grpc_client = some c →
      update s (.StopSandbox sid) =
        ({ s with grpc_client := none }, some (.stopSandboxCall c sid false))) ∧
    (∀ (s : HopsState) (c : ℕ),
      s.grpc_client = some c →
      update s (.SwitchView .RunHistory) =
        ({ s with view_mode := .RunHistory, loading_state := .LoadingHistory, grpc_client := none },
          some (.listSandboxesCall c true))) ∧
    (∀ (s : HopsState) (r : Except String String) (c : ℕ),
      update s (.RunSandboxResult r c) =
        ({ s with grpc_client := some c, loading_state := .Idle }, none)) ∧
    (∀ (s : HopsState) (r : Except String Unit) (c : ℕ),
      update s (.StopSandboxResult r c) = ({ s with grpc_client := some c }, none)) ∧
    (∀ (s : HopsState) (r : Except String (List RunRecord)) (c : ℕ),
      (update s (.HistoryLoaded r c)).1.grpc_client = some c ∧
        (update s (.HistoryLoaded r c)).2 = none) ∧
    (∀ (s : HopsState) (idx : ℕ) (cmd sid : String),
      s.grpc_client = none →
      update s (.RunSandbox idx cmd) = (s, none) ∧
      update s (.StopSandbox sid) = (s, none) ∧
      update s (.SwitchView .RunHistory) = ({ s with view_mode := .RunHistory }, none)) := by
  refine ⟨?_, ?_, ?_, ?_, ?_, ?_, ?_⟩
  · intro s idx cmd c p hc hp
    have hp' : s.profiles[idx]? = some p := by
      rw [← List.get?_eq_getElem?]
      exact hp
    simp [update, hp', hc]
  · intro s sid c hc
    simp [update, hc]
  · intro s c hc
    simp [update, hc]
  · intro s r c
    simp [update]
  · intro s r c
    simp [update]
  · intro s r c
    cases r <;> simp [update]
  · intro s idx cmd sid h
    refine ⟨?_, ?_, ?_⟩
    · cases hg : s.profiles[idx]? <;> simp [update, hg, h]
    · simp [update, h]
    · simp [update, h]

theorem c1_client_single_owner_witness :
    update { baseState with grpc_client := some 7 } (.RunSandbox 0 "ls") =
      ({ baseState with grpc_client := none, loading_state := .RunningSandbox },
        some (.runSandboxCall 7 samplePolicy (splitWhitespace "ls") (some "/"))) := by
  have h := c1_client_single_owner.1 { baseState with grpc_client := some 7 } 0 "ls" 7
    samplePolicy rfl rfl
  simpa using h

end Hops
